import Mathlib

/-!
Verification of the media-scraper backend against its natural-language
specification.

The development shallowly embeds the TypeScript sources of the repository:

* `src/backend/src/modules/media/media-scraper.service.ts`
  (`ScraperService`: `scrapeUrl`, `computeImageTitle`, `computeVideoTitle`,
  `computeIframeTitle`, `extractFilenameFromUrl`, `extractTitleFromEmbedUrl`,
  `isValidMediaUrl`, `normalizeUrl`),
* `src/backend/src/modules/media/media-scraping.processor.ts`
  (`ScrapingProcessor.process`),
* `src/backend/src/modules/media/media.service.ts` (`MediaService.getMedia`),
* `src/backend/src/constants/queue.constants.ts` (`QUEUE_CONFIG`),
* `src/backend/src/modules/media/media.dto.ts` (`GetMediaDto`).

JavaScript strings are modelled as `List Char` (`Str`); the ASCII behaviour of
the JS string methods used by the sources (`trim`, `startsWith`, `endsWith`,
`includes`, `split`, `toLowerCase`, `toUpperCase`) is reproduced by the
`*S` helpers below.  Node's WHATWG `URL` class and the BullMQ / Prisma layers
are external collaborators of the code; they are modelled from the spec where
needed (see `UrlApi`, `bulkInsert`, `PoolStep`).
-/

/-- JavaScript strings, modelled as lists of characters. -/
abbrev Str := List Char

/-- Models `s.startsWith(pat)` for JS strings. -/
def startsWithS : Str → Str → Bool
  | _, [] => true
  | [], _ :: _ => false
  | a :: as, b :: bs => a == b && startsWithS as bs

/-- Models `s.endsWith(pat)` for JS strings. -/
def endsWithS (s pat : Str) : Bool :=
  startsWithS s.reverse pat.reverse

/-- Models `s.includes(pat)` for JS strings. -/
def includesS : Str → Str → Bool
  | [], pat => pat.isEmpty
  | c :: t, pat => startsWithS (c :: t) pat || includesS t pat

/-- Models `s.trim()` for JS strings (ASCII whitespace). -/
def trimS (s : Str) : Str :=
  ((s.dropWhile Char.isWhitespace).reverse.dropWhile Char.isWhitespace).reverse

/-- Models `s.toLowerCase()` restricted to ASCII: the table of the 26 letters. -/
def lowerTable : List (Char × Char) :=
  [('A','a'),('B','b'),('C','c'),('D','d'),('E','e'),('F','f'),('G','g'),
   ('H','h'),('I','i'),('J','j'),('K','k'),('L','l'),('M','m'),('N','n'),
   ('O','o'),('P','p'),('Q','q'),('R','r'),('S','s'),('T','t'),('U','u'),
   ('V','v'),('W','w'),('X','x'),('Y','y'),('Z','z')]

/-- Models `c.toLowerCase()` on one character (ASCII). -/
def jsToLowerChar (c : Char) : Char :=
  match lowerTable.find? (fun p => p.1 == c) with
  | some p => p.2
  | none => c

/-- Models `c.toUpperCase()` on one character (ASCII). -/
def jsToUpperChar (c : Char) : Char :=
  match lowerTable.find? (fun p => p.2 == c) with
  | some p => p.1
  | none => c

/-- Models `s.toLowerCase()` for JS strings (ASCII). -/
def toLowerS (s : Str) : Str := s.map jsToLowerChar

/-- Models `s.split(sep)` for a one-character separator: always returns a
non-empty list of (possibly empty) fields, exactly as in JS. -/
def splitOnC (sep : Char) : Str → List Str
  | [] => [[]]
  | c :: t =>
    if c == sep then [] :: splitOnC sep t
    else
      match splitOnC sep t with
      | [] => [[c]]
      | h :: r => (c :: h) :: r

/-- Models the JS idiom `a || b` on strings (empty string is falsy). -/
def jsOr (a b : Str) : Str := if a.isEmpty then b else a

/-! ## The URL collaborator

`ScraperService` calls Node's WHATWG `URL` class (`new URL(u)`,
`new URL(u, base)`, `.protocol`, `.host`, `.pathname`,
`.searchParams.get('title')`).  That class is an external collaborator, not
repository code; it is abstracted as a record of total functions where parse
failure (the constructor throwing) is `none`. -/

/-- Modelled from the spec: the components of a parsed URL that the scraper
reads from Node's `URL` objects (`protocol` keeps its trailing colon, as in
Node; `searchTitle` is `searchParams.get('title')`, `none` when absent). -/
structure UrlParts where
  protocol : Str
  host : Str
  pathname : Str
  searchTitle : Option Str
deriving DecidableEq, Repr

/-- Modelled from the spec: the behaviour of Node's `URL` library as the
scraper uses it.  `parse u` is `new URL(u)` (`none` when the constructor
throws); `resolve u base` is `new URL(u, base).href` under standard
relative-URL resolution (`none` when that constructor throws). -/
structure UrlApi where
  parse : Str → Option UrlParts
  resolve : Str → Str → Option Str

/-- Embedding of `ScraperService.normalizeUrl`
(`media-scraper.service.ts`, lines 595–611).  The `try`/`catch` of the source
is the `Option` fallback: any parse failure returns the input unchanged. -/
def normalizeUrl (api : UrlApi) (url baseUrl : Str) : Str :=
  if startsWithS url ("http://".data) || startsWithS url ("https://".data) then
    url
  else if startsWithS url ("//".data) then
    "https:".data ++ url
  else
    match api.parse baseUrl with
    | none => url
    | some base =>
      if startsWithS url ("/".data) then
        base.protocol ++ "//".data ++ base.host ++ url
      else
        match api.resolve url baseUrl with
        | some href => href
        | none => url

/-- The specification's description of URL normalization (spec §4.1 step 6),
written independently of the source: absolute URLs unchanged,
protocol-relative prefixed with `https:`, root-relative combined with the
base's scheme and host, otherwise standard relative resolution, and the
source string unchanged whenever the base URL is unparseable. -/
def normalizeUrlSpec (api : UrlApi) (src baseUrl : Str) : Str :=
  if startsWithS src ("http://".data) || startsWithS src ("https://".data) then
    src
  else if startsWithS src ("//".data) then
    "https:".data ++ src
  else if (api.parse baseUrl).isNone then
    src
  else if startsWithS src ("/".data) then
    ((api.parse baseUrl).map
      (fun base => base.protocol ++ "//".data ++ base.host ++ src)).getD src
  else
    (api.resolve src baseUrl).getD src

/-! ## The HTML document model

Cheerio parses HTML into a DOM which the scraper traverses with `attr`,
`closest`, `find(..).first()`, `parent`, `prevAll(..).first()` and `text()`.
The DOM is embedded as a tree of element and text nodes; an occurrence of an
element inside a document is a `Located` value carrying the element together
with its chain of ancestor `Frame`s (nearest first), from which every
traversal the scraper performs can be answered. -/

/-- An HTML node: an element with a tag, attributes and children, or text. -/
inductive Html where
  | el (tag : Str) (attrs : List (Str × Str)) (children : List Html)
  | txt (s : Str)

/-- One ancestor of an occurrence: the ancestor's tag and attributes plus the
siblings to the left and right (in document order) of the child on the path. -/
structure Frame where
  tag : Str
  attrs : List (Str × Str)
  left : List Html
  right : List Html

/-- An element occurrence: the element itself plus its ancestors, nearest
ancestor first.  An empty `frames` list means the element is the root. -/
structure Located where
  tag : Str
  attrs : List (Str × Str)
  children : List Html
  frames : List Frame

/-- The element of an occurrence as a plain node. -/
def selfNode (l : Located) : Html := .el l.tag l.attrs l.children

mutual
/-- All element occurrences in a node, in document (preorder) order, given the
frames above the node. -/
def collectNode (n : Html) (frames : List Frame) : List Located :=
  match n with
  | .el t a cs => ⟨t, a, cs, frames⟩ :: collectChildren t a [] cs frames
  | .txt _ => []

/-- All element occurrences in a sibling list `rest`, `leftRev` being the
already-passed siblings in reverse document order. -/
def collectChildren (t : Str) (a : List (Str × Str)) (leftRev : List Html)
    (rest : List Html) (frames : List Frame) : List Located :=
  match rest with
  | [] => []
  | c :: cs =>
    collectNode c (⟨t, a, leftRev.reverse, cs⟩ :: frames) ++
      collectChildren t a (c :: leftRev) cs frames
end

/-- Models `$(el).attr(name)`: the first attribute with that name, or `none`
when absent (JS `undefined`). -/
def getAttr (attrs : List (Str × Str)) (name : Str) : Option Str :=
  (attrs.find? (fun p => p.1 == name)).map (fun p => p.2)

/-- `$(el).attr(name)` collapsed to a string: absent becomes `""`.  Every use
of attributes in the scraper is truthiness-guarded (or `|| ''`-defaulted), so
`undefined` and `""` are interchangeable there. -/
def attrD (attrs : List (Str × Str)) (name : Str) : Str :=
  (getAttr attrs name).getD []

/-- Models `$(el).closest(tag)` (cheerio: self first, then ancestors),
returning the matching occurrence. -/
def closestTagAux (t : Str) : List Frame → Html → Option Located
  | [], _ => none
  | f :: fs, child =>
    if f.tag == t then some ⟨f.tag, f.attrs, f.left ++ [child] ++ f.right, fs⟩
    else closestTagAux t fs (.el f.tag f.attrs (f.left ++ [child] ++ f.right))

/-- Models `$(el).closest(tag)` on an occurrence. -/
def closestTagL (t : Str) (l : Located) : Option Located :=
  if l.tag == t then some l else closestTagAux t l.frames (selfNode l)

mutual
/-- Preorder search of one node (the node itself, then its descendants) for
the first element whose tag is among `tags`. -/
def findDescNode (tags : List Str) : Html → Option Html
  | .txt _ => none
  | .el t a cs =>
    if tags.contains t then some (.el t a cs) else findDesc tags cs

/-- Models `selection.find(tags).first()`: the first element (preorder,
document order) among the nodes and their descendants whose tag is among
`tags`. -/
def findDesc (tags : List Str) : List Html → Option Html
  | [] => none
  | n :: rest =>
    match findDescNode tags n with
    | some r => some r
    | none => findDesc tags rest
end

mutual
/-- Models `$(node).text()`: the concatenated text content of a node. -/
def textOf : Html → Str
  | .txt s => s
  | .el _ _ cs => textOfList cs

/-- Concatenated text content of a node list, in document order. -/
def textOfList : List Html → Str
  | [] => []
  | c :: cs => textOf c ++ textOfList cs
end

/-- Models `$(el).prevAll(tags).first()`: the nearest preceding sibling
element whose tag is among `tags`. -/
def prevAllFirstTag (tags : List Str) (l : Located) : Option Html :=
  match l.frames with
  | [] => none
  | f :: _ =>
    f.left.reverse.findSome? fun n =>
      match n with
      | .el t a cs => if tags.contains t then some (Html.el t a cs) else none
      | .txt _ => none

/-- The children of the parent of an occurrence (the occurrence itself
included), i.e. the selection `parent()` as a node list to `find` in; empty
when the element is the root (an empty cheerio selection). -/
def parentChildren (l : Located) : List Html :=
  match l.frames with
  | [] => []
  | f :: _ => f.left ++ [selfNode l] ++ f.right

/-- The attributes of the parent of an occurrence (empty selection: none). -/
def parentAttrs (l : Located) : List (Str × Str) :=
  match l.frames with
  | [] => []
  | f :: _ => f.attrs

/-- The selector list `h1, h2, h3, h4, h5, h6` used by the title fallbacks. -/
def headingTags : List Str :=
  ["h1".data, "h2".data, "h3".data, "h4".data, "h5".data, "h6".data]

/-! ## Filename and embed-URL title extraction -/

/-- The extension alternatives of the regex
`/\.(jpg|jpeg|png|gif|webp|bmp|svg)$/i` in `extractFilenameFromUrl`. -/
def imageExts : List Str :=
  ["jpg".data, "jpeg".data, "png".data, "gif".data, "webp".data,
   "bmp".data, "svg".data]

/-- Models `filename.replace(/\.(jpg|...|svg)$/i, '')`: drop a trailing image
extension, compared case-insensitively. -/
def stripImageExt (s : Str) : Str :=
  match imageExts.find? (fun e => endsWithS (toLowerS s) ('.' :: e)) with
  | some e => s.take (s.length - (e.length + 1))
  | none => s

/-- Models `.replace(/[-_]/g, ' ')`. -/
def replaceDashUnderscore (s : Str) : Str :=
  s.map (fun c => if c == '-' || c == '_' then ' ' else c)

/-- Models `.replace(/([a-z])([A-Z])/g, '$1 $2')`: a space between a lowercase
letter and an uppercase letter directly following it. -/
def camelSplit : Str → Str
  | [] => []
  | [c] => [c]
  | a :: b :: rest =>
    if a.isLower && b.isUpper then a :: ' ' :: camelSplit (b :: rest)
    else a :: camelSplit (b :: rest)

/-- Models `word.charAt(0).toUpperCase() + word.slice(1).toLowerCase()`. -/
def capitalizeWord (w : Str) : Str :=
  match w with
  | [] => []
  | c :: rest => jsToUpperChar c :: rest.map jsToLowerChar

/-- Models `.join(' ')`. -/
def joinWords : List Str → Str
  | [] => []
  | [w] => w
  | w :: ws => w ++ ' ' :: joinWords ws

/-- Models `/^\d+$/.test(s)`. -/
def isAllDigits (s : Str) : Bool := !s.isEmpty && s.all Char.isDigit

/-- Embedding of `ScraperService.extractFilenameFromUrl`
(`media-scraper.service.ts`, lines 471–498): the cleaned filename of the URL's
last path segment, or `""` (the source's falsy sentinel) when the URL does not
parse or the cleaned result is not meaningful. -/
def extractFilenameFromUrl (api : UrlApi) (url : Str) : Str :=
  match api.parse url with
  | none => []
  | some urlObj =>
    let filename := (splitOnC '/' urlObj.pathname).getLastD []
    let nameWithoutExt := stripImageExt filename
    let cleaned :=
      joinWords
        (((splitOnC ' ' (camelSplit (replaceDashUnderscore nameWithoutExt))).filter
            (fun w => !w.isEmpty)).map capitalizeWord)
    if cleaned.length > 2 && !isAllDigits cleaned then cleaned else []

/-- Embedding of `ScraperService.extractTitleFromEmbedUrl`
(`media-scraper.service.ts`, lines 504–543): platform-specific titles built
from the embed URL's last path segment, else the `title` query parameter, else
`""`. -/
def extractTitleFromEmbedUrl (api : UrlApi) (url : Str) : Str :=
  match api.parse url with
  | none => []
  | some urlObj =>
    let ytStep : Option Str :=
      if includesS url ("youtube.com/embed/".data) || includesS url ("youtu.be/".data) then
        let videoId := (splitOnC '/' urlObj.pathname).getLastD []
        if !videoId.isEmpty && videoId.length > 5 then
          some ("YouTube Video (".data ++ videoId ++ ")".data)
        else none
      else none
    match ytStep with
    | some t => t
    | none =>
      let vimeoStep : Option Str :=
        if includesS url ("vimeo.com/video/".data) then
          let videoId := (splitOnC '/' urlObj.pathname).getLastD []
          if isAllDigits videoId then
            some ("Vimeo Video (".data ++ videoId ++ ")".data)
          else none
        else none
      match vimeoStep with
      | some t => t
      | none =>
        let dmStep : Option Str :=
          if includesS url ("dailymotion.com/embed/video/".data) then
            let videoId := (splitOnC '/' urlObj.pathname).getLastD []
            if !videoId.isEmpty then
              some ("Dailymotion Video (".data ++ videoId ++ ")".data)
            else none
          else none
        match dmStep with
        | some t => t
        | none =>
          match urlObj.searchTitle with
          | some titleParam =>
            if !titleParam.isEmpty && !(trimS titleParam).isEmpty then
              trimS titleParam
            else []
          | none => []

/-! ## Title fallback cascades -/

/-- Embedding of `ScraperService.computeImageTitle`
(`media-scraper.service.ts`, lines 246–310): the eight-step fallback cascade
for image titles, transliterated with each early `return` as a branch. -/
def computeImageTitle (imgElement : Located) (src : Str) (api : UrlApi) : Str :=
  let titleAttr := attrD imgElement.attrs ("title".data)
  if !titleAttr.isEmpty && !(trimS titleAttr).isEmpty then trimS titleAttr
  else
    let altText := attrD imgElement.attrs ("alt".data)
    if !altText.isEmpty && !(trimS altText).isEmpty && altText.length > 3 then
      trimS altText
    else
      let ariaLabel := attrD imgElement.attrs ("aria-label".data)
      if !ariaLabel.isEmpty && !(trimS ariaLabel).isEmpty then trimS ariaLabel
      else
        let figStep : Option Str :=
          match closestTagL ("figure".data) imgElement with
          | some figure =>
            match findDesc ["figcaption".data] figure.children with
            | some figcaption =>
              let caption := trimS (textOf figcaption)
              if !caption.isEmpty then some caption else none
            | none => none
          | none => none
        match figStep with
        | some c => c
        | none =>
          let headingStep : Option Str :=
            match findDesc headingTags (parentChildren imgElement) with
            | some h =>
              let headingText := trimS (textOf h)
              if !headingText.isEmpty then some headingText else none
            | none => none
          match headingStep with
          | some t => t
          | none =>
            let prevStep : Option Str :=
              match prevAllFirstTag headingTags imgElement with
              | some h =>
                let headingText := trimS (textOf h)
                if !headingText.isEmpty then some headingText else none
              | none => none
            match prevStep with
            | some t => t
            | none =>
              let parentDataTitle :=
                jsOr (attrD (parentAttrs imgElement) ("data-title".data))
                  (attrD (parentAttrs imgElement) ("data-caption".data))
              if !parentDataTitle.isEmpty && !(trimS parentDataTitle).isEmpty then
                trimS parentDataTitle
              else
                let filename := extractFilenameFromUrl api src
                if !filename.isEmpty then filename
                else "Image".data

/-- Embedding of `ScraperService.computeVideoTitle`
(`media-scraper.service.ts`, lines 325–394): the fallback cascade for `<video>`
titles, ending in platform detection on the source URL and `"Video"`. -/
def computeVideoTitle (videoElement : Located) (src : Str) (api : UrlApi) : Str :=
  let titleAttr := attrD videoElement.attrs ("title".data)
  if !titleAttr.isEmpty && !(trimS titleAttr).isEmpty then trimS titleAttr
  else
    let ariaLabel := attrD videoElement.attrs ("aria-label".data)
    if !ariaLabel.isEmpty && !(trimS ariaLabel).isEmpty then trimS ariaLabel
    else
      let dataTitle :=
        jsOr (attrD videoElement.attrs ("data-title".data))
          (attrD videoElement.attrs ("data-caption".data))
      if !dataTitle.isEmpty && !(trimS dataTitle).isEmpty then trimS dataTitle
      else
        let headingStep : Option Str :=
          match findDesc headingTags (parentChildren videoElement) with
          | some h =>
            let headingText := trimS (textOf h)
            if !headingText.isEmpty then some headingText else none
          | none => none
        match headingStep with
        | some t => t
        | none =>
          let prevStep : Option Str :=
            match prevAllFirstTag headingTags videoElement with
            | some h =>
              let headingText := trimS (textOf h)
              if !headingText.isEmpty then some headingText else none
            | none => none
          match prevStep with
          | some t => t
          | none =>
            let parentDataTitle :=
              jsOr (attrD (parentAttrs videoElement) ("data-title".data))
                (attrD (parentAttrs videoElement) ("data-caption".data))
            if !parentDataTitle.isEmpty && !(trimS parentDataTitle).isEmpty then
              trimS parentDataTitle
            else
              let filename := extractFilenameFromUrl api src
              if !filename.isEmpty then filename
              else if includesS src ("youtube.com".data) || includesS src ("youtu.be".data) then
                "YouTube Video".data
              else if includesS src ("vimeo.com".data) then "Vimeo Video".data
              else if includesS src ("dailymotion.com".data) then
                "Dailymotion Video".data
              else "Video".data

/-- Embedding of `ScraperService.computeIframeTitle`
(`media-scraper.service.ts`, lines 402–465): the fallback cascade for iframe
embeds, with the embed-URL extraction step before platform defaults and the
final `"Embedded Video"`. -/
def computeIframeTitle (iframeElement : Located) (src : Str) (api : UrlApi) : Str :=
  let titleAttr := attrD iframeElement.attrs ("title".data)
  if !titleAttr.isEmpty && !(trimS titleAttr).isEmpty then trimS titleAttr
  else
    let ariaLabel := attrD iframeElement.attrs ("aria-label".data)
    if !ariaLabel.isEmpty && !(trimS ariaLabel).isEmpty then trimS ariaLabel
    else
      let dataTitle :=
        jsOr (attrD iframeElement.attrs ("data-title".data))
          (attrD iframeElement.attrs ("data-caption".data))
      if !dataTitle.isEmpty && !(trimS dataTitle).isEmpty then trimS dataTitle
      else
        let headingStep : Option Str :=
          match findDesc headingTags (parentChildren iframeElement) with
          | some h =>
            let headingText := trimS (textOf h)
            if !headingText.isEmpty then some headingText else none
          | none => none
        match headingStep with
        | some t => t
        | none =>
          let prevStep : Option Str :=
            match prevAllFirstTag headingTags iframeElement with
            | some h =>
              let headingText := trimS (textOf h)
              if !headingText.isEmpty then some headingText else none
            | none => none
          match prevStep with
          | some t => t
          | none =>
            let parentDataTitle :=
              jsOr (attrD (parentAttrs iframeElement) ("data-title".data))
                (attrD (parentAttrs iframeElement) ("data-caption".data))
            if !parentDataTitle.isEmpty && !(trimS parentDataTitle).isEmpty then
              trimS parentDataTitle
            else
              let extracted := extractTitleFromEmbedUrl api src
              if !extracted.isEmpty then extracted
              else if includesS src ("youtube.com".data) || includesS src ("youtu.be".data) then
                "YouTube Video".data
              else if includesS src ("vimeo.com".data) then "Vimeo Video".data
              else if includesS src ("dailymotion.com".data) then
                "Dailymotion Video".data
              else "Embedded Video".data

/-! ## The extraction pipeline (`scrapeUrl`'s parsing half) -/

/-- The two media kinds of the `Media` entity and `ScrapedMedia`. -/
inductive MediaType where
  | image
  | video
deriving DecidableEq, Repr

/-- Embedding of the `ScrapedMedia` interface
(`media-scraper.service.ts`, lines 24–29): `alt` is `some` exactly when the
source sets the optional `alt` field (images only; videos leave it
`undefined`). -/
structure ScrapedMedia where
  url : Str
  type : MediaType
  alt : Option Str
  title : Str
deriving DecidableEq, Repr

/-- Embedding of `ScraperService.isValidMediaUrl`
(`media-scraper.service.ts`, lines 563–568): rejects empty URLs, `data:` URIs
and (case-sensitively) `.svg` files. -/
def isValidMediaUrl (url : Str) (_baseUrl : Str) : Bool :=
  if url.isEmpty then false
  else if startsWithS url ("data:".data) then false
  else if endsWithS url (".svg".data) then false
  else true

/-- The `$('img').each` pass of `scrapeUrl`
(`media-scraper.service.ts`, lines 145–159): one image candidate per `img`
occurrence with a truthy, valid `src`. -/
def imgItem (api : UrlApi) (baseUrl : Str) (l : Located) : Option ScrapedMedia :=
  if l.tag == "img".data then
    match getAttr l.attrs ("src".data) with
    | some src =>
      if !src.isEmpty && isValidMediaUrl src baseUrl then
        some { url := normalizeUrl api src baseUrl, type := .image,
               alt := some (attrD l.attrs ("alt".data)),
               title := computeImageTitle l src api }
      else none
    | none => none
  else none

/-- The `$('video source, video').each` pass of `scrapeUrl`
(`media-scraper.service.ts`, lines 161–174): the selector matches `video`
elements and `source` elements with a `video` ancestor; the title is computed
on `closest('video')`.  The `none` in the `closestTagL` branch is unreachable
for elements the selector matches. -/
def videoItem (api : UrlApi) (baseUrl : Str) (l : Located) : Option ScrapedMedia :=
  if l.tag == "video".data ||
      (l.tag == "source".data && l.frames.any (fun f => f.tag == "video".data)) then
    match getAttr l.attrs ("src".data) with
    | some src =>
      if !src.isEmpty && isValidMediaUrl src baseUrl then
        match closestTagL ("video".data) l with
        | some videoElement =>
          some { url := normalizeUrl api src baseUrl, type := .video,
                 alt := none, title := computeVideoTitle videoElement src api }
        | none => none
      else none
    | none => none
  else none

/-- The `$('iframe').each` pass of `scrapeUrl`
(`media-scraper.service.ts`, lines 176–193): iframe embeds are kept whenever
the `src` is truthy and mentions one of the three platforms — `isValidMediaUrl`
is not consulted here. -/
def iframeItem (api : UrlApi) (baseUrl : Str) (l : Located) : Option ScrapedMedia :=
  if l.tag == "iframe".data then
    match getAttr l.attrs ("src".data) with
    | some src =>
      if !src.isEmpty &&
          (includesS src ("youtube.com".data) || includesS src ("vimeo.com".data) ||
            includesS src ("dailymotion.com".data)) then
        some { url := normalizeUrl api src baseUrl, type := .video,
               alt := none, title := computeIframeTitle l src api }
      else none
    | none => none
  else none

/-- The pure extraction half of `ScraperService.scrapeUrl`
(`media-scraper.service.ts`, lines 141–193): the three `each` passes append
their candidates, in document order within each pass, to one list. -/
def extract (api : UrlApi) (doc : Html) (baseUrl : Str) : List ScrapedMedia :=
  let located := collectNode doc []
  located.filterMap (imgItem api baseUrl) ++
    located.filterMap (videoItem api baseUrl) ++
    located.filterMap (iframeItem api baseUrl)

/-! ## The specification's title cascade for images (spec §4.1 step 7) -/

/-- One cascade signal: `none` when absent or whitespace-only, otherwise the
trimmed value — the spec's "the first rule that yields a non-empty trimmed
string wins" and "whitespace-only titles at any cascade step are treated as
absent". -/
def nonBlank (v : Str) : Option Str :=
  if (trimS v).isEmpty then none else some (trimS v)

/-- Cascade rule (a): the `title` attribute. -/
def ruleTitleAttr (l : Located) : Option Str :=
  nonBlank (attrD l.attrs ("title".data))

/-- Cascade rule (b): the `alt` attribute when its length exceeds 3. -/
def ruleAltMeaningful (l : Located) : Option Str :=
  let a := attrD l.attrs ("alt".data)
  if a.length > 3 then nonBlank a else none

/-- Cascade rule (c): the `aria-label` attribute. -/
def ruleAria (l : Located) : Option Str :=
  nonBlank (attrD l.attrs ("aria-label".data))

/-- Cascade rule (d): the enclosing `figure`'s first `figcaption` text. -/
def ruleFigcaption (l : Located) : Option Str :=
  (closestTagL ("figure".data) l).bind fun figure =>
    (findDesc ["figcaption".data] figure.children).bind fun fc =>
      nonBlank (textOf fc)

/-- Cascade rule (e): the first heading (h1–h6, document order) among the
parent's descendants, else the nearest preceding-sibling heading. -/
def ruleHeading (l : Located) : Option Str :=
  match (findDesc headingTags (parentChildren l)).bind (fun h => nonBlank (textOf h)) with
  | some t => some t
  | none => (prevAllFirstTag headingTags l).bind (fun h => nonBlank (textOf h))

/-- Cascade rule (f): the parent's `data-title`, else `data-caption`. -/
def ruleParentData (l : Located) : Option Str :=
  nonBlank (jsOr (attrD (parentAttrs l) ("data-title".data))
    (attrD (parentAttrs l) ("data-caption".data)))

/-- Cascade rule (g): the cleaned filename extracted from the URL. -/
def ruleFilename (src : Str) (api : UrlApi) : Option Str :=
  let f := extractFilenameFromUrl api src
  if f.isEmpty then none else some f

/-- The image-title cascade as the spec words it: the ordered rules (a)–(g),
first non-absent result, else the literal `"Image"`. -/
def imageTitleCascade (l : Located) (src : Str) (api : UrlApi) : Str :=
  (([ruleTitleAttr l, ruleAltMeaningful l, ruleAria l, ruleFigcaption l,
      ruleHeading l, ruleParentData l, ruleFilename src api].findSome?
    id).getD ("Image".data))

/-- Cascade rule for videos and iframes: the element's own `data-title`, else
`data-caption`. -/
def ruleElemData (l : Located) : Option Str :=
  nonBlank (jsOr (attrD l.attrs ("data-title".data))
    (attrD l.attrs ("data-caption".data)))

/-- Cascade rule: a platform default title under a condition on the source. -/
def rulePlatform (cond : Bool) (title : Str) : Option Str :=
  if cond then some title else none

/-- Cascade rule for iframes: the title synthesized from the embed URL. -/
def ruleEmbedUrl (src : Str) (api : UrlApi) : Option Str :=
  let t := extractTitleFromEmbedUrl api src
  if t.isEmpty then none else some t

/-- The video-title cascade as the spec words it (§4.1 step 7, videos). -/
def videoTitleCascade (l : Located) (src : Str) (api : UrlApi) : Str :=
  (([ruleTitleAttr l, ruleAria l, ruleElemData l, ruleHeading l,
      ruleParentData l, ruleFilename src api,
      rulePlatform (includesS src ("youtube.com".data) || includesS src ("youtu.be".data))
        ("YouTube Video".data),
      rulePlatform (includesS src ("vimeo.com".data)) ("Vimeo Video".data),
      rulePlatform (includesS src ("dailymotion.com".data))
        ("Dailymotion Video".data)].findSome? id).getD ("Video".data))

/-- The iframe-title cascade as the spec words it (§4.1 step 7, embeds). -/
def iframeTitleCascade (l : Located) (src : Str) (api : UrlApi) : Str :=
  (([ruleTitleAttr l, ruleAria l, ruleElemData l, ruleHeading l,
      ruleParentData l, ruleEmbedUrl src api,
      rulePlatform (includesS src ("youtube.com".data) || includesS src ("youtu.be".data))
        ("YouTube Video".data),
      rulePlatform (includesS src ("vimeo.com".data)) ("Vimeo Video".data),
      rulePlatform (includesS src ("dailymotion.com".data))
        ("Dailymotion Video".data)].findSome? id).getD ("Embedded Video".data))

/-! ## The fetch half of `scrapeUrl` -/

/-- Log levels of the Winston logger calls the scraper makes. -/
inductive LogLevel where
  | debug
  | warn
deriving DecidableEq, Repr

/-- One logger call (messages abbreviated to what the claims need). -/
structure LogEntry where
  level : LogLevel
  message : Str
deriving DecidableEq, Repr

/-- The outcome of `axios.get`: a thrown error (network failure, timeout, or a
status rejected by `validateStatus`, which axios also turns into a throw), or
a response with its HTTP status and parsed body. -/
inductive FetchOutcome where
  | failure (message : Str)
  | response (status : Nat) (body : Html)

/-- Embedding of the `validateStatus` option of `scrapeUrl`
(`media-scraper.service.ts`, line 137): `status >= 200 && status < 400`. -/
def validateStatus (status : Nat) : Bool :=
  decide (200 ≤ status) && decide (status < 400)

/-- Embedding of `ScraperService.scrapeUrl`
(`media-scraper.service.ts`, lines 126–204) over a fetch outcome: a rejected
status or thrown error is caught, logged as a warning, and yields `[]`;
an accepted response is parsed and extracted.  The result pairs the returned
media list with the warn-level logger calls made (debug logs omitted). -/
def scrapeUrl (api : UrlApi) (outcome : FetchOutcome) (url : Str) :
    List ScrapedMedia × List LogEntry :=
  match outcome with
  | .failure msg =>
    ([], [⟨.warn, "Failed to scrape URL ".data ++ url ++ ": ".data ++ msg⟩])
  | .response status body =>
    if validateStatus status then
      (extract api body url, [])
    else
      ([], [⟨.warn, "Failed to scrape URL ".data ++ url ++ ": ".data ++
        "Request failed with status code ".data ++ (Nat.repr status).data⟩])

/-! ## Persistence: rows, skip-on-conflict bulk insert, pagination -/

/-- A persisted media row: the `Media` model's fields (`id` is opaque and
plays no role in the claims; `createdAt` is the insertion timestamp). -/
structure MediaRow where
  sourceUrl : Str
  mediaUrl : Str
  type : MediaType
  alt : Option Str
  title : Option Str
  createdAt : Nat
deriving DecidableEq, Repr

/-- Modelled from the spec: inserting one row into a store whose `mediaUrl`
column carries a unique constraint (`prisma/schema.prisma`, not under `src/`;
documented in `ARCHITECTURE_DECISIONS.md` ADR-005) with skip-on-conflict
semantics: a row whose `mediaUrl` already exists is silently skipped. -/
def insertOne (store : List MediaRow) (r : MediaRow) : List MediaRow :=
  if store.any (fun x => x.mediaUrl == r.mediaUrl) then store else store ++ [r]

/-- Modelled from the spec: `prisma.media.createMany({ data, skipDuplicates:
true })` as called by `ScrapingProcessor.process`
(`media-scraping.processor.ts`, lines 168–172): rows are inserted in order,
each skipped when its `mediaUrl` is already present (also within the batch). -/
def bulkInsert (store : List MediaRow) (items : List MediaRow) : List MediaRow :=
  items.foldl insertOne store

/-- A sequence of bulk-insert calls against an initially empty store. -/
def runBulkInserts (calls : List (List MediaRow)) : List MediaRow :=
  calls.foldl bulkInsert []

/-- The number of rows of the store with the given `mediaUrl`. -/
def countUrl (store : List MediaRow) (u : Str) : Nat :=
  store.countP (fun r => r.mediaUrl == u)

/-- Whether any call of the sequence contains an item with the given
`mediaUrl`. -/
def someCallHasUrl (calls : List (List MediaRow)) (u : Str) : Bool :=
  calls.any (fun c => c.any (fun r => r.mediaUrl == u))

/-- Embedding of the `mediaToCreate` mapping of `ScrapingProcessor.process`
(`media-scraping.processor.ts`, lines 160–166): `item.alt || null` and
`item.title || null` turn absent or empty strings into SQL `NULL` (`none`);
`createdAt` is supplied by the store at insertion time. -/
def toMediaRow (url : Str) (createdAt : Nat) (item : ScrapedMedia) : MediaRow :=
  { sourceUrl := url,
    mediaUrl := item.url,
    type := item.type,
    alt := match item.alt with
           | none => none
           | some a => if a.isEmpty then none else some a,
    title := if item.title.isEmpty then none else some item.title,
    createdAt := createdAt }

/-- The query parameters of `MediaService.getMedia` after `GetMediaDto`
validation (`media.dto.ts`, lines 23–48). -/
structure GetMediaQuery where
  page : Nat
  limit : Nat
  mediaType? : Option MediaType
  search? : Option Str

/-- The `meta` object of a paginated response (`interfaces`). -/
structure PageMeta where
  total : Nat
  page : Nat
  limit : Nat
  totalPages : Nat
deriving DecidableEq, Repr

/-- A paginated response of `MediaService.getMedia`. -/
structure PaginatedMedia where
  data : List MediaRow
  meta : PageMeta

/-- The `type` filter of the Prisma `where` clause. -/
def matchesType (t? : Option MediaType) (r : MediaRow) : Bool :=
  match t? with
  | none => true
  | some t => r.type == t

/-- One disjunct of the search filter: case-insensitive substring match on a
nullable column (`NULL` never matches). -/
def fieldContainsCI (f : Option Str) (s : Str) : Bool :=
  match f with
  | none => false
  | some v => includesS (toLowerS v) (toLowerS s)

/-- The `search` filter of the Prisma `where` clause: case-insensitive
`contains` over `alt`, `title`, `sourceUrl`, `mediaUrl`, combined with OR. -/
def matchesSearch (s? : Option Str) (r : MediaRow) : Bool :=
  match s? with
  | none => true
  | some s =>
    fieldContainsCI r.alt s || fieldContainsCI r.title s ||
      fieldContainsCI (some r.sourceUrl) s || fieldContainsCI (some r.mediaUrl) s

/-- The full `where` clause of `getMedia`. -/
def matchesWhere (q : GetMediaQuery) (r : MediaRow) : Bool :=
  matchesType q.mediaType? r && matchesSearch q.search? r

/-- Insertion step of the stable descending sort by `createdAt`. -/
def insertByCreatedDesc (r : MediaRow) : List MediaRow → List MediaRow
  | [] => [r]
  | x :: xs =>
    if x.createdAt < r.createdAt then r :: x :: xs
    else x :: insertByCreatedDesc r xs

/-- The store's `orderBy: { createdAt: 'desc' }` (newest first). -/
def sortByCreatedDesc (l : List MediaRow) : List MediaRow :=
  l.foldr insertByCreatedDesc []

/-- Models `Math.ceil(total / limit)` on naturals, for `limit ≥ 1`. -/
def jsCeilDiv (total limit : Nat) : Nat := (total + limit - 1) / limit

/-- Embedding of `MediaService.getMedia`
(`media.service.ts`, lines 258–305 of the Prisma version; the TypeORM variant
at lines 39–72 has the same skip/take/count semantics): filter by `where`,
order by `createdAt` descending, `skip = (page-1)*limit`, `take = limit`,
`total` the filtered count and `totalPages = Math.ceil(total / limit)`. -/
def getMedia (store : List MediaRow) (q : GetMediaQuery) : PaginatedMedia :=
  let skip := (q.page - 1) * q.limit
  let filtered := store.filter (matchesWhere q)
  let sorted := sortByCreatedDesc filtered
  let data := (sorted.drop skip).take q.limit
  let total := filtered.length
  { data := data,
    meta := { total := total, page := q.page, limit := q.limit,
              totalPages := jsCeilDiv total q.limit } }

/-! ## The job queue and worker pool -/

/-- Embedding of `QUEUE_CONFIG.SCRAPING.CONCURRENCY`
(`queue.constants.ts`, lines 78–89): the worker-pool size passed to
`@Processor(QUEUE_NAMES.SCRAPING, { concurrency: ... })`. -/
def QUEUE_CONFIG_SCRAPING_CONCURRENCY : Nat := 50

/-- The phases of a scraping job (spec §4.3 state machine). -/
inductive JobPhase where
  | pending
  | inFlight
  | retrying
  | completed
  | failedPermanently
deriving DecidableEq, Repr

/-- The number of jobs currently in flight. -/
def countInFlight (jobs : List JobPhase) : Nat :=
  jobs.countP (fun j => j == JobPhase.inFlight)

/-- Modelled from the spec: the BullMQ worker-pool transition relation
(spec §4.3) for a queue configured with concurrency `cap`.  A job starts (or
restarts after a retry wait) only when fewer than `cap` jobs are in flight;
completed jobs are discarded from the record list (`REMOVE_ON_COMPLETE`).
Retry counting is irrelevant to the concurrency bound and not tracked. -/
inductive PoolStep (cap : Nat) : List JobPhase → List JobPhase → Prop
  | submit (s : List JobPhase) :
      PoolStep cap s (JobPhase.pending :: s)
  | start (a b : List JobPhase) :
      countInFlight (a ++ JobPhase.pending :: b) < cap →
      PoolStep cap (a ++ JobPhase.pending :: b) (a ++ JobPhase.inFlight :: b)
  | restart (a b : List JobPhase) :
      countInFlight (a ++ JobPhase.retrying :: b) < cap →
      PoolStep cap (a ++ JobPhase.retrying :: b) (a ++ JobPhase.inFlight :: b)
  | complete (a b : List JobPhase) :
      PoolStep cap (a ++ JobPhase.inFlight :: b) (a ++ b)
  | failRetry (a b : List JobPhase) :
      PoolStep cap (a ++ JobPhase.inFlight :: b) (a ++ JobPhase.retrying :: b)
  | failPerm (a b : List JobPhase) :
      PoolStep cap (a ++ JobPhase.inFlight :: b) (a ++ JobPhase.failedPermanently :: b)

/-- The states reachable from the empty queue. -/
inductive PoolReachable (cap : Nat) : List JobPhase → Prop
  | init : PoolReachable cap []
  | step {s t : List JobPhase} :
      PoolReachable cap s → PoolStep cap s t → PoolReachable cap t

/-! ## A concrete URL collaborator and concrete documents -/

/-- Everything the parser treats as ending the host part. -/
def hostEnd (c : Char) : Bool := c == '/' || c == '?' || c == '#'

/-- Modelled from the spec: the host/path/query split of an http(s) URL as
Node's `URL` performs it, restricted to the already-encoded URLs the concrete
scenarios use (no percent-decoding, no `.`/`..` segments). -/
def refParseAux (protocol rest : Str) : Option UrlParts :=
  let host := rest.takeWhile (fun c => !hostEnd c)
  let afterHost := rest.drop host.length
  let path := afterHost.takeWhile (fun c => !(c == '?' || c == '#'))
  let pathname := if path.isEmpty then "/".data else path
  let afterPath := afterHost.drop path.length
  let searchTitle :=
    if startsWithS afterPath ("?".data) then
      ((splitOnC '&' ((afterPath.drop 1).takeWhile (fun c => !(c == '#')))).findSome?
        fun p => if startsWithS p ("title=".data) then some (p.drop 6) else none)
    else none
  if host.isEmpty then none
  else some { protocol := protocol, host := host, pathname := pathname,
              searchTitle := searchTitle }

/-- Modelled from the spec: `new URL(u)` for http(s) URLs; anything else is a
parse failure. -/
def refParse (u : Str) : Option UrlParts :=
  if startsWithS u ("https://".data) then refParseAux ("https:".data) (u.drop 8)
  else if startsWithS u ("http://".data) then refParseAux ("http:".data) (u.drop 7)
  else none

/-- The directory prefix of a pathname (up to and including the last `/`). -/
def dirOf (p : Str) : Str :=
  (p.reverse.dropWhile (fun c => !(c == '/'))).reverse

/-- Modelled from the spec: `new URL(u, b).href` under standard resolution,
restricted to the cases the concrete scenarios exercise: an absolute `u`
(http(s) or `data:`) resolves to itself, otherwise `u` is resolved against a
parseable http(s) base. -/
def refResolve (u b : Str) : Option Str :=
  if (refParse u).isSome then some u
  else if startsWithS u ("data:".data) then some u
  else
    match refParse b with
    | none => none
    | some bp =>
      if startsWithS u ("/".data) then
        some (bp.protocol ++ "//".data ++ bp.host ++ u)
      else
        some (bp.protocol ++ "//".data ++ bp.host ++ dirOf bp.pathname ++ u)

/-- The concrete URL collaborator assembled from the reference parser. -/
def refUrlApi : UrlApi := { parse := refParse, resolve := refResolve }

/-- The trivial URL collaborator: every parse and resolution fails (the
source's `catch` paths). -/
def trivUrlApi : UrlApi :=
  { parse := fun _ => none, resolve := fun _ _ => none }

/-- Spec Scenario C's document: `<iframe src="https://youtube.com/embed/abc12345">`
as cheerio loads it (wrapped in `html`/`head`/`body`). -/
def scenarioCDoc : Html :=
  .el "html".data []
    [.el "head".data [] [],
     .el "body".data []
       [.el "iframe".data
          [("src".data, "https://youtube.com/embed/abc12345".data)] []]]

/-- A document holding an upper-case `.SVG` image and a `data:` iframe whose
source mentions `youtube.com` — the two inputs on which the claimed universal
filtering fails. -/
def filterBypassDoc : Html :=
  .el "html".data []
    [.el "head".data [] [],
     .el "body".data []
       [.el "img".data [("src".data, "http://ex.com/icon.SVG".data)] [],
        .el "iframe".data [("src".data, "data:text/html,youtube.com".data)] []]]

/-- A document with one image that has no `alt` attribute. -/
def noAltImgDoc : Html :=
  .el "html".data []
    [.el "head".data [] [],
     .el "body".data []
       [.el "img".data [("src".data, "https://ex.com/cat-photo.jpg".data)] []]]

/-- Spec Scenario A's document:
`<img src="/a.jpg" alt="cat photo" title="My Cat">`. -/
def scenarioADoc : Html :=
  .el "html".data []
    [.el "head".data [] [],
     .el "body".data []
       [.el "img".data
          [("src".data, "/a.jpg".data), ("alt".data, "cat photo".data),
           ("title".data, "My Cat".data)] []]]

/-- Well-formedness of a URL collaborator: parsed pathnames never contain
whitespace characters (true of Node's `URL`, which percent-encodes them). -/
def WfUrlApi (api : UrlApi) : Prop :=
  ∀ u p, api.parse u = some p → ∀ c ∈ p.pathname, c.isWhitespace = false

/-- A title is usable: non-empty and not entirely whitespace. -/
def goodTitle (s : Str) : Prop :=
  s ≠ [] ∧ s.any (fun c => !c.isWhitespace) = true

/-- Whether the store already holds a row with the given `mediaUrl`. -/
def hasUrl (store : List MediaRow) (u : Str) : Bool :=
  store.any (fun r => r.mediaUrl == u)

/-- A store of exactly 25 rows with distinct media URLs (spec Scenario E). -/
def demoStore : List MediaRow :=
  (List.range 25).map fun i =>
    { sourceUrl := "s".data, mediaUrl := "m".data ++ (Nat.repr i).data,
      type := .image, alt := none, title := none, createdAt := i }

/-- A root `img` occurrence with an absolute source, for concrete witnesses. -/
def imgLocDemo : Located :=
  { tag := "img".data, attrs := [("src".data, "http://ex.com/a.jpg".data)],
    children := [], frames := [] }

/-- Claim C5: for every source string and base URL, `normalizeUrl` returns the
source unchanged when it is already absolute (`http://`/`https://`), prefixes
`https:` for protocol-relative sources, combines the base's scheme and host
for root-relative sources, resolves relatively otherwise, and returns the
source unchanged, without throwing, whenever the base URL is unparseable. -/
theorem C5_normalizeUrl_cases (api : UrlApi) (src baseUrl : Str) :
    normalizeUrl api src baseUrl = normalizeUrlSpec api src baseUrl := by
  unfold normalizeUrl normalizeUrlSpec
  by_cases h1 :
      (startsWithS src ("http://".data) || startsWithS src ("https://".data)) = true
  · simp [h1]
  · simp only [Bool.not_eq_true] at h1
    by_cases h2 : startsWithS src ("//".data) = true
    · simp [h1, h2]
    · simp only [Bool.not_eq_true] at h2
      cases hp : api.parse baseUrl with
      | none => simp [h1, h2, hp]
      | some base =>
        by_cases h3 : startsWithS src ("/".data) = true
        · simp [h1, h2, h3, hp]
        · simp only [Bool.not_eq_true] at h3
          cases hr : api.resolve src baseUrl with
          | none => simp [h1, h2, h3, hp, hr]
          | some href => simp [h1, h2, h3, hp, hr]

/-! ## Skip-on-conflict dedup (C1) -/

/-- Inserting one row preserves and extends key membership. -/
theorem hasUrl_insertOne (store : List MediaRow) (r : MediaRow) (u : Str) :
    hasUrl (insertOne store r) u = (hasUrl store u || r.mediaUrl == u) := by
  unfold insertOne
  by_cases h : store.any (fun x => x.mediaUrl == r.mediaUrl) = true
  · rw [if_pos h]
    cases hm : (r.mediaUrl == u) with
    | false => simp
    | true =>
      have hu : r.mediaUrl = u := by simpa using hm
      subst hu
      have hh : hasUrl store r.mediaUrl = true := h
      simp [hh]
  · rw [if_neg h]
    simp [hasUrl, List.any_append]

/-- Inserting one row preserves the one-row-per-key invariant. -/
theorem countUrl_insertOne (store : List MediaRow) (r : MediaRow)
    (hinv : ∀ u, countUrl store u = if hasUrl store u then 1 else 0) (u : Str) :
    countUrl (insertOne store r) u =
      if hasUrl (insertOne store r) u then 1 else 0 := by
  rw [hasUrl_insertOne]
  unfold insertOne
  by_cases h : store.any (fun x => x.mediaUrl == r.mediaUrl) = true
  · rw [if_pos h]
    cases hm : (r.mediaUrl == u) with
    | false => simpa [hm] using hinv u
    | true =>
      have hu : r.mediaUrl = u := by simpa using hm
      subst hu
      have hh : hasUrl store r.mediaUrl = true := h
      rw [hinv r.mediaUrl, hh]
      simp
  · rw [if_neg h]
    have hfalse : hasUrl store r.mediaUrl = false := by
      simpa [hasUrl] using h
    cases hm : (r.mediaUrl == u) with
    | false =>
      have heq : countUrl (store ++ [r]) u = countUrl store u := by
        simp [countUrl, List.countP_append, hm]
      rw [heq, hinv u]
      simp
    | true =>
      have hu : r.mediaUrl = u := by simpa using hm
      subst hu
      have h0 : countUrl store r.mediaUrl = 0 := by
        rw [hinv r.mediaUrl, hfalse]
        simp
      have heq : countUrl (store ++ [r]) r.mediaUrl = countUrl store r.mediaUrl + 1 := by
        simp [countUrl, List.countP_append]
      rw [heq, h0, hfalse]
      simp

/-- Bulk insert: key membership is the union of store keys and item keys. -/
theorem hasUrl_bulkInsert (items : List MediaRow) (store : List MediaRow) (u : Str) :
    hasUrl (bulkInsert store items) u =
      (hasUrl store u || items.any (fun r => r.mediaUrl == u)) := by
  induction items generalizing store with
  | nil => simp [bulkInsert]
  | cons r rest ih =>
    simp only [bulkInsert, List.foldl_cons, List.any_cons]
    rw [show List.foldl insertOne (insertOne store r) rest =
          bulkInsert (insertOne store r) rest from rfl, ih, hasUrl_insertOne,
      Bool.or_assoc]

/-- Bulk insert preserves the one-row-per-key invariant. -/
theorem countUrl_bulkInsert (items : List MediaRow) (store : List MediaRow)
    (hinv : ∀ u, countUrl store u = if hasUrl store u then 1 else 0) (u : Str) :
    countUrl (bulkInsert store items) u =
      if hasUrl (bulkInsert store items) u then 1 else 0 := by
  induction items generalizing store with
  | nil => simpa [bulkInsert] using hinv u
  | cons r rest ih =>
    simp only [bulkInsert, List.foldl_cons]
    exact ih (insertOne store r) (countUrl_insertOne store r hinv)

/-- Claim C1: for every sequence of bulk-insert calls (the persistence of
`ScrapingProcessor.process`), the store afterwards holds exactly one row per
distinct `mediaUrl` that occurred in some call — one row when the URL was
ever inserted, none otherwise; repeated URLs within or across calls are
silently skipped (`insertOne` is total: no error path exists). -/
theorem C1_dedup_invariant (calls : List (List MediaRow)) (u : Str) :
    countUrl (runBulkInserts calls) u =
      if someCallHasUrl calls u then 1 else 0 := by
  have main : ∀ (cs : List (List MediaRow)) (store : List MediaRow),
      (∀ v, countUrl store v = if hasUrl store v then 1 else 0) →
      ∀ v, countUrl (cs.foldl bulkInsert store) v =
        if (hasUrl store v || someCallHasUrl cs v) then 1 else 0 := by
    intro cs
    induction cs with
    | nil =>
      intro store hinv v
      simpa [someCallHasUrl] using hinv v
    | cons c rest ih =>
      intro store hinv v
      simp only [List.foldl_cons]
      have h1 := ih (bulkInsert store c) (countUrl_bulkInsert c store hinv) v
      rw [h1, hasUrl_bulkInsert]
      simp only [someCallHasUrl, List.any_cons]
      simp only [Bool.or_assoc]
  have h := main calls [] (fun v => rfl) u
  simpa [runBulkInserts, hasUrl] using h

/-! ## Bounded concurrency (C9) -/

/-- Claim C9: in every state reachable by the worker-pool step relation with
the configured concurrency (50), the number of `InFlight` jobs never exceeds
the pool size, regardless of how many jobs are pending. -/
theorem C9_bounded_concurrency (s : List JobPhase)
    (h : PoolReachable QUEUE_CONFIG_SCRAPING_CONCURRENCY s) :
    countInFlight s ≤ QUEUE_CONFIG_SCRAPING_CONCURRENCY := by
  induction h with
  | init => simp [countInFlight]
  | step hr hs ih =>
    cases hs with
    | submit s =>
      simpa [countInFlight, List.countP_cons] using ih
    | start a b hlt =>
      simp only [countInFlight, List.countP_append, List.countP_cons] at hlt ⊢
      simp at hlt ⊢
      omega
    | restart a b hlt =>
      simp only [countInFlight, List.countP_append, List.countP_cons] at hlt ⊢
      simp at hlt ⊢
      omega
    | complete a b =>
      simp only [countInFlight, List.countP_append, List.countP_cons] at ih ⊢
      simp at ih ⊢
      omega
    | failRetry a b =>
      simp only [countInFlight, List.countP_append, List.countP_cons] at ih ⊢
      simp at ih ⊢
      omega
    | failPerm a b =>
      simp only [countInFlight, List.countP_append, List.countP_cons] at ih ⊢
      simp at ih ⊢
      omega

/-- Witness for C9: the state with one in-flight job, reached by submitting a
job and starting it, satisfies the bound. -/
theorem C9_bounded_concurrency_witness :
    countInFlight [JobPhase.inFlight] ≤ QUEUE_CONFIG_SCRAPING_CONCURRENCY :=
  C9_bounded_concurrency [JobPhase.inFlight]
    (PoolReachable.step
      (PoolReachable.step PoolReachable.init (PoolStep.submit []))
      (PoolStep.start [] [] (by decide)))

/-! ## Empty alt/title persisted as NULL (C10) -/

/-- Claim C10: the processor's `item.alt || null` and `item.title || null`
persist empty (or absent) strings as `NULL`; in particular, the image of
`noAltImgDoc`, whose extracted `alt` is the empty string, is stored with a
`NULL` alt. -/
theorem C10_empty_fields_stored_null :
    (∀ (url : Str) (t : Nat) (item : ScrapedMedia),
        ((item.alt = some [] ∨ item.alt = none) → (toMediaRow url t item).alt = none) ∧
          (item.title = [] → (toMediaRow url t item).title = none)) ∧
      ∀ m ∈ extract refUrlApi noAltImgDoc ("https://ex.com/".data),
        m.alt = some [] ∧ (toMediaRow ("https://ex.com/".data) 0 m).alt = none := by
  constructor
  · intro url t item
    constructor
    · intro h
      rcases h with h | h <;> simp [toMediaRow, h, List.isEmpty]
    · intro h
      simp [toMediaRow, h, List.isEmpty]
  · decide

/-- Witness for C10: the alt-to-NULL implication applied at a concrete item
with an empty alt string. -/
theorem C10_empty_fields_stored_null_witness :
    (toMediaRow ("https://ex.com/".data) 0
      { url := "u".data, type := .image, alt := some [], title := "T".data }).alt
      = none :=
  (C10_empty_fields_stored_null.1 ("https://ex.com/".data) 0
    { url := "u".data, type := .image, alt := some [], title := "T".data }).1
    (Or.inl rfl)

/-! ## Fetch failures collapse to the empty list (C6) -/

/-- Claim C6: `scrapeUrl` never raises — a thrown fetch error (network error
or timeout) and a response whose status `validateStatus` rejects both yield
the empty media list with a warning logged, and `validateStatus` accepts
exactly the statuses 200–399. -/
theorem C6_fetch_failures_collapse :
    (∀ (api : UrlApi) (url msg : Str),
        (scrapeUrl api (.failure msg) url).1 = [] ∧
          ∃ e ∈ (scrapeUrl api (.failure msg) url).2, e.level = .warn) ∧
      (∀ (api : UrlApi) (url : Str) (status : Nat) (body : Html),
          validateStatus status = false →
          (scrapeUrl api (.response status body) url).1 = [] ∧
            ∃ e ∈ (scrapeUrl api (.response status body) url).2, e.level = .warn) ∧
      ∀ status : Nat, validateStatus status = true ↔ (200 ≤ status ∧ status ≤ 399) := by
  refine ⟨?_, ?_, ?_⟩
  · intro api url msg
    constructor
    · rfl
    · exact ⟨_, List.mem_cons_self _ _, rfl⟩
  · intro api url status body hbad
    constructor
    · simp [scrapeUrl, hbad]
    · refine ⟨⟨.warn, "Failed to scrape URL ".data ++ url ++ ": ".data ++
        "Request failed with status code ".data ++ (Nat.repr status).data⟩, ?_, rfl⟩
      simp [scrapeUrl, hbad]
  · intro status
    simp only [validateStatus, Bool.and_eq_true, decide_eq_true_eq]
    omega

/-- Witness for C6: a 404 response yields no media and a warning. -/
theorem C6_fetch_failures_collapse_witness :
    (scrapeUrl trivUrlApi (.response 404 noAltImgDoc) ("https://ex.com".data)).1 = [] ∧
      ∃ e ∈ (scrapeUrl trivUrlApi (.response 404 noAltImgDoc) ("https://ex.com".data)).2,
        e.level = .warn :=
  C6_fetch_failures_collapse.2.1 trivUrlApi ("https://ex.com".data) 404 noAltImgDoc
    (by decide)

/-! ## Pagination contract (C4) -/

/-- Insertion into the descending sort adds one element. -/
theorem length_insertByCreatedDesc (r : MediaRow) (l : List MediaRow) :
    (insertByCreatedDesc r l).length = l.length + 1 := by
  induction l with
  | nil => rfl
  | cons x xs ih =>
    unfold insertByCreatedDesc
    split
    · rfl
    · simp [ih]

/-- The descending sort preserves length. -/
theorem length_sortByCreatedDesc (l : List MediaRow) :
    (sortByCreatedDesc l).length = l.length := by
  unfold sortByCreatedDesc
  induction l with
  | nil => rfl
  | cons x xs ih => simp [List.foldr_cons, length_insertByCreatedDesc, ih]

/-- `jsCeilDiv` computes the rational ceiling of `total / limit`. -/
theorem jsCeilDiv_eq_ceil (n l : Nat) (hl : 1 ≤ l) :
    jsCeilDiv n l = Nat.ceil ((n : ℚ) / (l : ℚ)) := by
  have hl0 : 0 < l := hl
  have hlq : (0 : ℚ) < (l : ℚ) := by exact_mod_cast hl0
  apply le_antisymm
  · rcases Nat.eq_zero_or_pos (jsCeilDiv n l) with h0 | hpos
    · simp [h0]
    · have hn : 1 ≤ n := by
        rcases Nat.eq_zero_or_pos n with rfl | h
        · exfalso
          have : jsCeilDiv 0 l = 0 := by
            unfold jsCeilDiv
            exact Nat.div_eq_of_lt (by omega)
          omega
        · exact h
      have h1 : jsCeilDiv n l * l ≤ n + l - 1 :=
        (Nat.le_div_iff_mul_le hl0).1 (le_refl _)
      have key : (jsCeilDiv n l - 1) * l < n := by
        have hexp : (jsCeilDiv n l - 1) * l = jsCeilDiv n l * l - l :=
          Nat.sub_one_mul _ _ ▸ rfl
        omega
      have hq : ((jsCeilDiv n l - 1 : ℕ) : ℚ) < (n : ℚ) / (l : ℚ) := by
        rw [lt_div_iff₀ hlq]
        exact_mod_cast key
      have h2 := Nat.lt_ceil.2 hq
      omega
  · have h1 : n + l - 1 < (jsCeilDiv n l + 1) * l :=
      (Nat.div_lt_iff_lt_mul hl0).1 (Nat.lt_succ_self _)
    have key : n ≤ jsCeilDiv n l * l := by
      have hexp : (jsCeilDiv n l + 1) * l = jsCeilDiv n l * l + l := by ring
      omega
    refine Nat.ceil_le.2 ?_
    rw [div_le_iff₀ hlq]
    exact_mod_cast key

/-- Claim C4: `getMedia(page=p, limit=l)` returns at most `l` items and
reports `meta.totalPages = ceil(total / l)` for every page `p ≥ 1` and limit
`1 ≤ l ≤ 100`; on a store of exactly 25 rows, page 2 with limit 20 returns
5 items and `totalPages = 2`. -/
theorem C4_pagination_contract :
    (∀ (store : List MediaRow) (p l : Nat) (t? : Option MediaType) (s? : Option Str),
        1 ≤ p → 1 ≤ l → l ≤ 100 →
        (getMedia store ⟨p, l, t?, s?⟩).data.length ≤ l ∧
          (getMedia store ⟨p, l, t?, s?⟩).meta.totalPages =
            Nat.ceil (((getMedia store ⟨p, l, t?, s?⟩).meta.total : ℚ) / (l : ℚ))) ∧
      (∀ store : List MediaRow, store.length = 25 →
        (getMedia store ⟨2, 20, none, none⟩).data.length = 5 ∧
          (getMedia store ⟨2, 20, none, none⟩).meta.totalPages = 2) := by
  constructor
  · intro store p l t? s? _hp hl _hl100
    constructor
    · simp [getMedia]
    · simpa [getMedia] using
        jsCeilDiv_eq_ceil (store.filter (matchesWhere ⟨p, l, t?, s?⟩)).length l hl
  · intro store hlen
    have hfilter : store.filter (matchesWhere ⟨2, 20, none, none⟩) = store := by
      apply List.filter_eq_self.2
      intro r _
      rfl
    constructor
    · have hsorted :
          (sortByCreatedDesc (store.filter (matchesWhere ⟨2, 20, none, none⟩))).length
            = 25 := by
        rw [hfilter, length_sortByCreatedDesc, hlen]
      simp [getMedia, List.length_take, List.length_drop, hsorted]
    · simp [getMedia, hfilter, hlen, jsCeilDiv]

/-- Witness for C4: the pagination contract and Scenario E evaluated on the
concrete 25-row store. -/
theorem C4_pagination_contract_witness :
    (getMedia demoStore ⟨2, 20, none, none⟩).data.length = 5 ∧
      (getMedia demoStore ⟨2, 20, none, none⟩).meta.totalPages = 2 :=
  C4_pagination_contract.2 demoStore (by decide)

/-! ## URL validity filtering (C3) -/

/-- What a successful `isValidMediaUrl` check guarantees about the source. -/
theorem isValidMediaUrl_spec (src b : Str) (h : isValidMediaUrl src b = true) :
    src.isEmpty = false ∧ startsWithS src ("data:".data) = false ∧
      endsWithS src (".svg".data) = false := by
  unfold isValidMediaUrl at h
  by_cases h1 : src.isEmpty = true
  · rw [if_pos h1] at h
    exact absurd h (by decide)
  · rw [if_neg h1] at h
    by_cases h2 : startsWithS src ("data:".data) = true
    · rw [if_pos h2] at h
      exact absurd h (by decide)
    · rw [if_neg h2] at h
      by_cases h3 : endsWithS src (".svg".data) = true
      · rw [if_pos h3] at h
        exact absurd h (by decide)
      · refine ⟨?_, ?_, ?_⟩ <;> simp_all

/-- Counterexample to C3 as stated: on `filterBypassDoc` the extractor's
output contains a candidate whose source begins with `data:` (the iframe pass
never consults `isValidMediaUrl`) and a candidate whose source ends in `.svg`
in upper case (the `.svg` check is case-sensitive). -/
theorem C3_filtering_counterexample :
    ((extract refUrlApi filterBypassDoc ("https://ex.com/page".data)).any
        (fun m => startsWithS m.url ("data:".data))) = true ∧
      ((extract refUrlApi filterBypassDoc ("https://ex.com/page".data)).any
        (fun m => endsWithS (toLowerS m.url) (".svg".data))) = true := by
  decide

/-- Claim C3 as amended: the validity filter (non-empty source, no `data:`
prefix, no case-sensitive `.svg` suffix) governs every image and video
candidate, while iframe-embed candidates are only required to have a
non-empty source containing a platform domain. -/
theorem C3_filtering_amended (api : UrlApi) (baseUrl : Str) (l : Located)
    (m : ScrapedMedia) :
    ((imgItem api baseUrl l = some m ∨ videoItem api baseUrl l = some m) →
        ∃ src, getAttr l.attrs ("src".data) = some src ∧ src ≠ [] ∧
          startsWithS src ("data:".data) = false ∧
          endsWithS src (".svg".data) = false) ∧
      (iframeItem api baseUrl l = some m →
        ∃ src, getAttr l.attrs ("src".data) = some src ∧ src ≠ [] ∧
          (includesS src ("youtube.com".data) || includesS src ("vimeo.com".data) ||
            includesS src ("dailymotion.com".data)) = true) := by
  constructor
  · intro h
    have valid : ∃ src, getAttr l.attrs ("src".data) = some src ∧
        isValidMediaUrl src baseUrl = true := by
      rcases h with h | h
      · unfold imgItem at h
        split at h
        · split at h
          · split at h
            · rename_i src heq hcond
              rw [Bool.and_eq_true] at hcond
              exact ⟨src, heq, hcond.2⟩
            · simp at h
          · simp at h
        · simp at h
      · unfold videoItem at h
        split at h
        · split at h
          · split at h
            · rename_i src heq hcond
              rw [Bool.and_eq_true] at hcond
              exact ⟨src, heq, hcond.2⟩
            · simp at h
          · simp at h
        · simp at h
    obtain ⟨src, hsrc, hvalid⟩ := valid
    obtain ⟨he, hd, hs⟩ := isValidMediaUrl_spec src baseUrl hvalid
    refine ⟨src, hsrc, ?_, hd, hs⟩
    intro hnil
    rw [hnil] at he
    exact absurd he (by decide)
  · intro h
    unfold iframeItem at h
    split at h
    · split at h
      · split at h
        · rename_i src heq hcond
          rw [Bool.and_eq_true] at hcond
          refine ⟨src, heq, ?_, hcond.2⟩
          intro hnil
          rw [hnil] at hcond
          exact absurd hcond.1 (by decide)
        · simp at h
      · simp at h
    · simp at h

/-- Witness for C3 as amended: the image-candidate implication at a concrete
image occurrence with a valid absolute source. -/
theorem C3_filtering_amended_witness :
    ∃ src, getAttr imgLocDemo.attrs ("src".data) = some src ∧ src ≠ [] ∧
      startsWithS src ("data:".data) = false ∧
      endsWithS src (".svg".data) = false :=
  (C3_filtering_amended refUrlApi ("https://ex.com/".data) imgLocDemo
      { url := "http://ex.com/a.jpg".data, type := .image, alt := some [],
        title := "Image".data }).1
    (Or.inl (by decide))

/-! ## Scenario C: the YouTube embed (C8) -/

/-- Claim C8: scraping the document holding exactly
`<iframe src="https://youtube.com/embed/abc12345">` against any base URL
yields exactly one candidate, of type video, whose title contains both
`"YouTube Video"` and the id `abc12345`. -/
theorem C8_scenarioC_youtube_embed (baseUrl : Str) :
    extract refUrlApi scenarioCDoc baseUrl =
      [{ url := "https://youtube.com/embed/abc12345".data, type := .video,
         alt := none, title := "YouTube Video (abc12345)".data }] ∧
      includesS ("YouTube Video (abc12345)".data) ("YouTube Video".data) = true ∧
      includesS ("YouTube Video (abc12345)".data) ("abc12345".data) = true :=
  ⟨rfl, by decide, by decide⟩


/-! ## The image title cascade (C7) -/

/-- The truthiness guard `v && v.trim()` is equivalent to the trim check. -/
theorem truthy_trim_cond (v : Str) :
    (!v.isEmpty && !(trimS v).isEmpty) = !(trimS v).isEmpty := by
  cases v <;> rfl

theorem truthy_trim_cond2 (v : Str) (b : Bool) :
    ((!v.isEmpty && !(trimS v).isEmpty) && b) = (!(trimS v).isEmpty && b) := by
  cases v <;> rfl

theorem cascade_cons (o : Option Str) (rest : List (Option Str)) (d : Str) :
    ((o :: rest).findSome? id).getD d = o.getD ((rest.findSome? id).getD d) := by
  cases o <;> simp [List.findSome?_cons]

theorem level_if (c : Bool) (v tc tr : Str) (h : tc = tr) :
    (if (!c) = true then v else tc) =
      (if c = true then none else some v).getD tr := by
  cases c <;> simp [h]

theorem level_alt (c : Bool) (p : Prop) [Decidable p] (v tc tr : Str) (h : tc = tr) :
    (if (!c && decide p) = true then v else tc) =
      (if p then (if c = true then none else some v) else none).getD tr := by
  by_cases hp : p <;> cases c <;> simp [hp, h]

theorem level_opt (o : Option Str) (tc tr : Str) (h : tc = tr) :
    (match o with | some c => c | none => tc) = o.getD tr := by
  cases o <;> simp [h]

theorem level_heading (a b : Option Str) (tc tr : Str) (h : tc = tr) :
    (match a with
     | some c => c
     | none =>
       match b with
       | some c => c
       | none => tc) =
      ((match a with | some t => some t | none => b).getD tr) := by
  cases a <;> cases b <;> simp [h]

theorem fig_inner (l : Located) :
    (match closestTagL ("figure".data) l with
     | some figure =>
       match findDesc ["figcaption".data] figure.children with
       | some figcaption =>
         if (!(trimS (textOf figcaption)).isEmpty) = true then
           some (trimS (textOf figcaption))
         else none
       | none => none
     | none => none) =
      ((closestTagL ("figure".data) l).bind fun figure =>
        (findDesc ["figcaption".data] figure.children).bind fun fc =>
          if (trimS (textOf fc)).isEmpty = true then none
          else some (trimS (textOf fc))) := by
  cases closestTagL ("figure".data) l with
  | none => rfl
  | some figure =>
    dsimp only [Option.some_bind]
    cases findDesc ["figcaption".data] figure.children with
    | none => rfl
    | some fc =>
      dsimp only [Option.some_bind]
      cases hc : (trimS (textOf fc)).isEmpty <;> rfl

theorem head_inner (o : Option Html) :
    (match o with
     | some h =>
       if (!(trimS (textOf h)).isEmpty) = true then some (trimS (textOf h))
       else none
     | none => none) =
      (o.bind fun h =>
        if (trimS (textOf h)).isEmpty = true then none
        else some (trimS (textOf h))) := by
  cases o with
  | none => rfl
  | some h =>
    dsimp only [Option.some_bind]
    cases hc : (trimS (textOf h)).isEmpty <;> rfl

theorem computeImageTitle_eq_cascade (l : Located) (src : Str) (api : UrlApi) :
    computeImageTitle l src api = imageTitleCascade l src api := by
  unfold computeImageTitle imageTitleCascade
  rw [cascade_cons, cascade_cons, cascade_cons, cascade_cons, cascade_cons,
    cascade_cons, cascade_cons]
  simp only [List.findSome?_nil, Option.getD_none]
  unfold ruleTitleAttr ruleAltMeaningful ruleAria ruleFigcaption ruleHeading
    ruleParentData ruleFilename nonBlank
  rw [truthy_trim_cond, truthy_trim_cond2, truthy_trim_cond, truthy_trim_cond]
  refine level_if _ _ _ _ ?_
  refine level_alt _ _ _ _ _ ?_
  refine level_if _ _ _ _ ?_
  rw [fig_inner l]
  refine level_opt _ _ _ ?_
  rw [head_inner (findDesc headingTags (parentChildren l)),
    head_inner (prevAllFirstTag headingTags l)]
  refine level_heading _ _ _ _ ?_
  refine level_if _ _ _ _ ?_
  exact level_if _ _ _ _ rfl

/-- Claim C7: for every image occurrence, the computed title is the first
non-absent result of the ordered cascade title attribute; alt (length > 3);
aria-label; enclosing figure's figcaption; heading inside the parent, else
nearest preceding-sibling heading; parent's data-title/data-caption; cleaned
filename; else the literal "Image" — where a whitespace-only value at any
step counts as absent. -/
theorem C7_image_title_cascade (l : Located) (src : Str) (api : UrlApi) :
    computeImageTitle l src api = imageTitleCascade l src api :=
  computeImageTitle_eq_cascade l src api

/-- One platform-default cascade level. -/
theorem level_platform (c : Bool) (v tc tr : Str) (h : tc = tr) :
    (if c = true then v else tc) = (if c = true then some v else none).getD tr := by
  cases c <;> simp [h]

/-- The transliterated `computeVideoTitle` equals the spec's ordered cascade. -/
theorem computeVideoTitle_eq_cascade (l : Located) (src : Str) (api : UrlApi) :
    computeVideoTitle l src api = videoTitleCascade l src api := by
  unfold computeVideoTitle videoTitleCascade
  rw [cascade_cons, cascade_cons, cascade_cons, cascade_cons, cascade_cons,
    cascade_cons, cascade_cons, cascade_cons, cascade_cons]
  simp only [List.findSome?_nil, Option.getD_none]
  unfold ruleTitleAttr ruleAria ruleElemData ruleHeading ruleParentData
    ruleFilename rulePlatform nonBlank
  rw [truthy_trim_cond, truthy_trim_cond, truthy_trim_cond, truthy_trim_cond]
  refine level_if _ _ _ _ ?_
  refine level_if _ _ _ _ ?_
  refine level_if _ _ _ _ ?_
  rw [head_inner (findDesc headingTags (parentChildren l)),
    head_inner (prevAllFirstTag headingTags l)]
  refine level_heading _ _ _ _ ?_
  refine level_if _ _ _ _ ?_
  refine level_if _ _ _ _ ?_
  refine level_platform _ _ _ _ ?_
  refine level_platform _ _ _ _ ?_
  exact level_platform _ _ _ _ rfl

/-- The transliterated `computeIframeTitle` equals the spec's ordered cascade. -/
theorem computeIframeTitle_eq_cascade (l : Located) (src : Str) (api : UrlApi) :
    computeIframeTitle l src api = iframeTitleCascade l src api := by
  unfold computeIframeTitle iframeTitleCascade
  rw [cascade_cons, cascade_cons, cascade_cons, cascade_cons, cascade_cons,
    cascade_cons, cascade_cons, cascade_cons, cascade_cons]
  simp only [List.findSome?_nil, Option.getD_none]
  unfold ruleTitleAttr ruleAria ruleElemData ruleHeading ruleParentData
    ruleEmbedUrl rulePlatform nonBlank
  rw [truthy_trim_cond, truthy_trim_cond, truthy_trim_cond, truthy_trim_cond]
  refine level_if _ _ _ _ ?_
  refine level_if _ _ _ _ ?_
  refine level_if _ _ _ _ ?_
  rw [head_inner (findDesc headingTags (parentChildren l)),
    head_inner (prevAllFirstTag headingTags l)]
  refine level_heading _ _ _ _ ?_
  refine level_if _ _ _ _ ?_
  refine level_if _ _ _ _ ?_
  refine level_platform _ _ _ _ ?_
  refine level_platform _ _ _ _ ?_
  exact level_platform _ _ _ _ rfl

/-! ## Titles are never blank (C2) -/

/-- A non-empty `dropWhile` result contains an element failing the predicate. -/
theorem exists_not_of_dropWhile_ne_nil {α : Type} (p : α → Bool) (l : List α)
    (h : l.dropWhile p ≠ []) : ∃ x ∈ l.dropWhile p, p x = false := by
  induction l with
  | nil => simp [List.dropWhile] at h
  | cons a t ih =>
    rw [List.dropWhile_cons] at h ⊢
    by_cases hp : p a = true
    · rw [if_pos hp] at h ⊢
      exact ih h
    · rw [if_neg hp] at h ⊢
      exact ⟨a, List.mem_cons_self a _, by simpa using hp⟩

/-- A non-empty trim result is a usable title. -/
theorem goodTitle_of_trim (v : Str) (h : (trimS v).isEmpty = false) :
    goodTitle (trimS v) := by
  have hne : trimS v ≠ [] := by
    intro hh
    rw [hh] at h
    simp at h
  refine ⟨hne, ?_⟩
  unfold trimS at hne ⊢
  have h2 : (v.dropWhile Char.isWhitespace).reverse.dropWhile Char.isWhitespace ≠ [] := by
    intro hh
    rw [hh] at hne
    exact hne rfl
  obtain ⟨x, hx, hpx⟩ := exists_not_of_dropWhile_ne_nil _ _ h2
  refine List.any_eq_true.2 ⟨x, ?_, ?_⟩
  · exact List.mem_reverse.2 hx
  · simp [hpx]

/-- A string headed by a non-whitespace character is a usable title. -/
theorem goodTitle_cons (c : Char) (rest : Str) (hc : c.isWhitespace = false) :
    goodTitle (c :: rest) :=
  ⟨by simp, by simp [List.any_cons, hc]⟩

/-- Prepending a usable title keeps it usable. -/
theorem goodTitle_append (a b : Str) (h : goodTitle a) : goodTitle (a ++ b) := by
  obtain ⟨h1, h2⟩ := h
  constructor
  · cases a with
    | nil => exact absurd rfl h1
    | cons c r => simp
  · rw [List.any_append, h2]
    rfl

/-- A successful `nonBlank` yields a usable title. -/
theorem nonBlank_good (v t : Str) (h : nonBlank v = some t) : goodTitle t := by
  unfold nonBlank at h
  split at h
  · simp at h
  · rename_i hc
    have ht : trimS v = t := by simpa using h
    subst ht
    exact goodTitle_of_trim v (by simpa using hc)

/-- `splitOnC` always yields at least one field. -/
theorem splitOnC_ne_nil (sep : Char) (s : Str) : splitOnC sep s ≠ [] := by
  induction s with
  | nil => simp [splitOnC]
  | cons c t ih =>
    unfold splitOnC
    by_cases hc : (c == sep) = true
    · simp [hc]
    · rw [if_neg hc]
      cases h : splitOnC sep t with
      | nil => simp
      | cons w r => simp

/-- Characters of a `splitOnC` field come from the input and are never the
separator. -/
theorem mem_of_mem_splitOnC (sep : Char) (s : Str) (w : Str)
    (hw : w ∈ splitOnC sep s) : ∀ c ∈ w, c ∈ s ∧ (c == sep) = false := by
  induction s generalizing w with
  | nil =>
    simp [splitOnC] at hw
    subst hw
    simp
  | cons a t ih =>
    unfold splitOnC at hw
    by_cases ha : (a == sep) = true
    · rw [if_pos ha] at hw
      rcases List.mem_cons.1 hw with rfl | hw2
      · simp
      · intro c hc
        obtain ⟨h1, h2⟩ := ih w hw2 c hc
        exact ⟨List.mem_cons_of_mem _ h1, h2⟩
    · rw [if_neg ha] at hw
      cases hsp : splitOnC sep t with
      | nil => exact absurd hsp (splitOnC_ne_nil sep t)
      | cons h0 r =>
        rw [hsp] at hw
        rcases List.mem_cons.1 hw with rfl | hw2
        · intro c hc
          rcases List.mem_cons.1 hc with rfl | hc2
          · refine ⟨List.mem_cons_self _ _, ?_⟩
            cases hcs : (c == sep) with
            | false => rfl
            | true => exact absurd hcs ha
          · have h0mem : h0 ∈ splitOnC sep t := by
              rw [hsp]
              exact List.mem_cons_self _ _
            obtain ⟨h1, h2⟩ := ih h0 h0mem c hc2
            exact ⟨List.mem_cons_of_mem _ h1, h2⟩
        · intro c hc
          have hmem : w ∈ splitOnC sep t := by
            rw [hsp]
            exact List.mem_cons_of_mem _ hw2
          obtain ⟨h1, h2⟩ := ih w hmem c hc
          exact ⟨List.mem_cons_of_mem _ h1, h2⟩

/-- `getLastD` of a non-empty list is one of its elements. -/
theorem getLastD_mem {α : Type} (l : List α) (d : α) (h : l ≠ []) :
    l.getLastD d ∈ l := by
  induction l generalizing d with
  | nil => exact absurd rfl h
  | cons a t ih =>
    rw [List.getLastD_cons]
    cases t with
    | nil => simp [List.getLastD]
    | cons b r => exact List.mem_cons_of_mem _ (ih a (by simp))

/-- Stripping the extension keeps a subset of the characters. -/
theorem mem_stripImageExt (s : Str) (c : Char) (h : c ∈ stripImageExt s) :
    c ∈ s := by
  unfold stripImageExt at h
  cases hf : imageExts.find? (fun e => endsWithS (toLowerS s) ('.' :: e)) with
  | none =>
    rw [hf] at h
    exact h
  | some e =>
    rw [hf] at h
    exact List.take_subset _ _ h

/-- Dash/underscore replacement yields spaces or original characters. -/
theorem mem_replaceDashUnderscore (s : Str) (c : Char)
    (h : c ∈ replaceDashUnderscore s) : c = ' ' ∨ c ∈ s := by
  unfold replaceDashUnderscore at h
  obtain ⟨a, ha, hc⟩ := List.mem_map.1 h
  by_cases hd : (a == '-' || a == '_') = true
  · left
    rw [← hc]
    simp [hd]
  · right
    rw [← hc]
    simpa [hd] using ha

/-- camelCase splitting yields spaces or original characters. -/
theorem mem_camelSplit (s : Str) (c : Char) (h : c ∈ camelSplit s) :
    c = ' ' ∨ c ∈ s := by
  induction s with
  | nil => simp [camelSplit] at h
  | cons a t ih =>
    cases t with
    | nil =>
      simp [camelSplit] at h
      simp [h]
    | cons b r =>
      unfold camelSplit at h
      by_cases hab : (a.isLower && b.isUpper) = true
      · rw [if_pos hab] at h
        rcases List.mem_cons.1 h with rfl | h2
        · right
          exact List.mem_cons_self _ _
        · rcases List.mem_cons.1 h2 with rfl | h3
          · left
            rfl
          · rcases ih h3 with hsp | hmem
            · exact Or.inl hsp
            · exact Or.inr (List.mem_cons_of_mem _ hmem)
      · rw [if_neg hab] at h
        rcases List.mem_cons.1 h with rfl | h2
        · right
          exact List.mem_cons_self _ _
        · rcases ih h2 with hsp | hmem
          · exact Or.inl hsp
          · exact Or.inr (List.mem_cons_of_mem _ hmem)

/-- ASCII upper-casing never produces whitespace from non-whitespace. -/
theorem jsToUpperChar_ws (c : Char) (h : c.isWhitespace = false) :
    (jsToUpperChar c).isWhitespace = false := by
  unfold jsToUpperChar
  cases hf : lowerTable.find? (fun p => p.2 == c) with
  | none => exact h
  | some p =>
    have hp : p ∈ lowerTable := List.mem_of_find?_eq_some hf
    have hall : ∀ q ∈ lowerTable, (q.1).isWhitespace = false := by decide
    exact hall p hp

/-- `joinWords` satisfies `any` when its first word does. -/
theorem joinWords_any (w : Str) (ws : List Str) (p : Char → Bool)
    (h : w.any p = true) : (joinWords (w :: ws)).any p = true := by
  cases ws with
  | nil => simpa [joinWords] using h
  | cons w2 r => simp [joinWords, List.any_append, h]

/-- The cleaned-filename pipeline yields a usable title whenever its input has
no whitespace characters and the result is non-empty. -/
theorem cleaned_good (base : Str) (hbase : ∀ c ∈ base, c.isWhitespace = false)
    (hne : joinWords (((splitOnC ' ' (camelSplit (replaceDashUnderscore base))).filter
        (fun w => !w.isEmpty)).map capitalizeWord) ≠ []) :
    goodTitle (joinWords (((splitOnC ' ' (camelSplit (replaceDashUnderscore base))).filter
        (fun w => !w.isEmpty)).map capitalizeWord)) := by
  cases hfl : (splitOnC ' ' (camelSplit (replaceDashUnderscore base))).filter
      (fun w => !w.isEmpty) with
  | nil =>
    rw [hfl] at hne
    exact absurd rfl hne
  | cons w0 ws0 =>
    have hw0 : w0 ∈ (splitOnC ' ' (camelSplit (replaceDashUnderscore base))).filter
        (fun w => !w.isEmpty) := by
      rw [hfl]
      exact List.mem_cons_self _ _
    obtain ⟨hw0split, hw0ne⟩ := List.mem_filter.1 hw0
    cases w0 with
    | nil => simp at hw0ne
    | cons c0 r0 =>
      have hc0 : c0 ∈ c0 :: r0 := List.mem_cons_self _ _
      obtain ⟨hc0mem, hc0sep⟩ := mem_of_mem_splitOnC ' ' _ _ hw0split c0 hc0
      have hc0ws : c0.isWhitespace = false := by
        rcases mem_camelSplit _ c0 hc0mem with hsp | hmem
        · rw [hsp] at hc0sep
          exact absurd hc0sep (by decide)
        · rcases mem_replaceDashUnderscore _ c0 hmem with hsp | hmem2
          · rw [hsp] at hc0sep
            exact absurd hc0sep (by decide)
          · exact hbase c0 hmem2
      have hgood : goodTitle (capitalizeWord (c0 :: r0)) := by
        unfold capitalizeWord
        exact goodTitle_cons _ _ (jsToUpperChar_ws c0 hc0ws)
      simp only [List.map_cons]
      cases ws0 with
      | nil => simpa [joinWords] using hgood
      | cons w1 ws1 =>
        simp only [List.map_cons, joinWords]
        exact goodTitle_append _ _ hgood

/-- The extracted filename is a usable title whenever it is non-empty and the
URL collaborator is well-formed. -/
theorem extractFilenameFromUrl_good (api : UrlApi) (hwf : WfUrlApi api)
    (url : Str) (h : extractFilenameFromUrl api url ≠ []) :
    goodTitle (extractFilenameFromUrl api url) := by
  unfold extractFilenameFromUrl at h ⊢
  cases hp : api.parse url with
  | none =>
    rw [hp] at h
    dsimp only at h
    exact absurd rfl h
  | some urlObj =>
    rw [hp] at h
    dsimp only at h ⊢
    set base := stripImageExt ((splitOnC '/' urlObj.pathname).getLastD []) with hbasedef
    have hbase : ∀ c ∈ base, c.isWhitespace = false := by
      intro c hc
      have hc2 : c ∈ (splitOnC '/' urlObj.pathname).getLastD [] :=
        mem_stripImageExt _ c hc
      have hlastmem : (splitOnC '/' urlObj.pathname).getLastD [] ∈
          splitOnC '/' urlObj.pathname :=
        getLastD_mem _ _ (splitOnC_ne_nil _ _)
      obtain ⟨hmem, _⟩ := mem_of_mem_splitOnC '/' _ _ hlastmem c hc2
      exact hwf url urlObj hp c hmem
    by_cases hcond : (decide ((joinWords (((splitOnC ' ' (camelSplit
        (replaceDashUnderscore base))).filter (fun w => !w.isEmpty)).map
        capitalizeWord)).length > 2) && !isAllDigits (joinWords (((splitOnC ' '
        (camelSplit (replaceDashUnderscore base))).filter (fun w =>
        !w.isEmpty)).map capitalizeWord))) = true
    · rw [if_pos hcond] at h ⊢
      refine cleaned_good base hbase ?_
      rw [Bool.and_eq_true] at hcond
      have hlen := of_decide_eq_true hcond.1
      intro hnil
      rw [hnil] at hlen
      simp at hlen
    · rw [if_neg hcond] at h
      exact absurd rfl h

/-- Appending twice onto a usable title keeps it usable. -/
theorem goodTitle_lit_append (a : Str) (ha : goodTitle a) (b c : Str) :
    goodTitle (a ++ b ++ c) :=
  goodTitle_append _ _ (goodTitle_append _ _ ha)

/-- The embed-URL title is either empty or usable. -/
theorem extractTitleFromEmbedUrl_cases (api : UrlApi) (url : Str) :
    extractTitleFromEmbedUrl api url = [] ∨
      goodTitle (extractTitleFromEmbedUrl api url) := by
  unfold extractTitleFromEmbedUrl
  cases api.parse url with
  | none => exact Or.inl rfl
  | some urlObj =>
    dsimp only
    split
    · rename_i t heq
      refine Or.inr ?_
      split at heq
      · split at heq
        · have ht : "YouTube Video (".data ++ (splitOnC '/' urlObj.pathname).getLastD []
              ++ ")".data = t := by simpa using heq
          rw [← ht]
          exact goodTitle_lit_append _ (by constructor <;> decide) _ _
        · simp at heq
      · simp at heq
    · split
      · rename_i t heq
        refine Or.inr ?_
        split at heq
        · split at heq
          · have ht : "Vimeo Video (".data ++ (splitOnC '/' urlObj.pathname).getLastD []
                ++ ")".data = t := by simpa using heq
            rw [← ht]
            exact goodTitle_lit_append _ (by constructor <;> decide) _ _
          · simp at heq
        · simp at heq
      · split
        · rename_i t heq
          refine Or.inr ?_
          split at heq
          · split at heq
            · have ht : "Dailymotion Video (".data ++
                  (splitOnC '/' urlObj.pathname).getLastD [] ++ ")".data = t := by
                simpa using heq
              rw [← ht]
              exact goodTitle_lit_append _ (by constructor <;> decide) _ _
            · simp at heq
          · simp at heq
        · cases urlObj.searchTitle with
          | none => exact Or.inl rfl
          | some tp =>
            dsimp only
            split
            · rename_i hcond
              rw [Bool.and_eq_true] at hcond
              exact Or.inr (goodTitle_of_trim tp (by simpa using hcond.2))
            · exact Or.inl rfl

/-- Each cascade rule that succeeds yields a usable title. -/
theorem ruleTitleAttr_good (l : Located) (t : Str)
    (h : ruleTitleAttr l = some t) : goodTitle t :=
  nonBlank_good _ _ h

/-- The `alt` rule yields a usable title. -/
theorem ruleAltMeaningful_good (l : Located) (t : Str)
    (h : ruleAltMeaningful l = some t) : goodTitle t := by
  unfold ruleAltMeaningful at h
  dsimp only at h
  split at h
  · exact nonBlank_good _ _ h
  · simp at h

/-- The `aria-label` rule yields a usable title. -/
theorem ruleAria_good (l : Located) (t : Str)
    (h : ruleAria l = some t) : goodTitle t :=
  nonBlank_good _ _ h

/-- The figcaption rule yields a usable title. -/
theorem ruleFigcaption_good (l : Located) (t : Str)
    (h : ruleFigcaption l = some t) : goodTitle t := by
  unfold ruleFigcaption at h
  rcases Option.bind_eq_some.1 h with ⟨fig, _, h2⟩
  rcases Option.bind_eq_some.1 h2 with ⟨fc, _, h3⟩
  exact nonBlank_good _ _ h3

/-- The heading rule yields a usable title. -/
theorem ruleHeading_good (l : Located) (t : Str)
    (h : ruleHeading l = some t) : goodTitle t := by
  unfold ruleHeading at h
  split at h
  · rename_i t2 heq
    rcases Option.bind_eq_some.1 heq with ⟨hh, _, h2⟩
    have ht : t2 = t := by simpa using h
    subst ht
    exact nonBlank_good _ _ h2
  · rcases Option.bind_eq_some.1 h with ⟨hh, _, h2⟩
    exact nonBlank_good _ _ h2

/-- The element-data rule yields a usable title. -/
theorem ruleElemData_good (l : Located) (t : Str)
    (h : ruleElemData l = some t) : goodTitle t :=
  nonBlank_good _ _ h

/-- The parent-data rule yields a usable title. -/
theorem ruleParentData_good (l : Located) (t : Str)
    (h : ruleParentData l = some t) : goodTitle t :=
  nonBlank_good _ _ h

/-- The filename rule yields a usable title for a well-formed collaborator. -/
theorem ruleFilename_good (api : UrlApi) (hwf : WfUrlApi api) (src t : Str)
    (h : ruleFilename src api = some t) : goodTitle t := by
  unfold ruleFilename at h
  dsimp only at h
  split at h
  · simp at h
  · rename_i hc
    have ht : extractFilenameFromUrl api src = t := by simpa using h
    subst ht
    refine extractFilenameFromUrl_good api hwf src ?_
    intro hnil
    exact hc (by rw [hnil]; rfl)

/-- A successful platform rule returns its literal title. -/
theorem rulePlatform_eq (c : Bool) (ti t : Str)
    (h : rulePlatform c ti = some t) : t = ti := by
  unfold rulePlatform at h
  split at h
  · simpa using h.symm
  · simp at h

/-- The embed-URL rule yields a usable title. -/
theorem ruleEmbedUrl_good (api : UrlApi) (src t : Str)
    (h : ruleEmbedUrl src api = some t) : goodTitle t := by
  unfold ruleEmbedUrl at h
  dsimp only at h
  split at h
  · simp at h
  · rename_i hc
    have ht : extractTitleFromEmbedUrl api src = t := by simpa using h
    subst ht
    rcases extractTitleFromEmbedUrl_cases api src with hnil | hgood
    · exact absurd (by rw [hnil]; rfl) hc
    · exact hgood

/-- A cascade over rules whose successes are usable, with a usable default,
yields a usable title. -/
theorem cascade_getD_good (opts : List (Option Str)) (d : Str)
    (hopts : ∀ t, some t ∈ opts → goodTitle t) (hd : goodTitle d) :
    goodTitle ((opts.findSome? id).getD d) := by
  induction opts with
  | nil => simpa using hd
  | cons o rest ih =>
    rw [cascade_cons]
    cases o with
    | none =>
      simpa using ih (fun t ht => hopts t (List.mem_cons_of_mem _ ht))
    | some t => simpa using hopts t (List.mem_cons_self _ _)

/-- The image cascade always yields a usable title. -/
theorem imageTitleCascade_good (api : UrlApi) (hwf : WfUrlApi api)
    (l : Located) (src : Str) : goodTitle (imageTitleCascade l src api) := by
  unfold imageTitleCascade
  refine cascade_getD_good _ _ ?_ (by constructor <;> decide)
  intro t ht
  simp only [List.mem_cons, List.not_mem_nil, or_false] at ht
  rcases ht with h | h | h | h | h | h | h
  · exact ruleTitleAttr_good l t h.symm
  · exact ruleAltMeaningful_good l t h.symm
  · exact ruleAria_good l t h.symm
  · exact ruleFigcaption_good l t h.symm
  · exact ruleHeading_good l t h.symm
  · exact ruleParentData_good l t h.symm
  · exact ruleFilename_good api hwf src t h.symm

/-- The video cascade always yields a usable title. -/
theorem videoTitleCascade_good (api : UrlApi) (hwf : WfUrlApi api)
    (l : Located) (src : Str) : goodTitle (videoTitleCascade l src api) := by
  unfold videoTitleCascade
  refine cascade_getD_good _ _ ?_ (by constructor <;> decide)
  intro t ht
  simp only [List.mem_cons, List.not_mem_nil, or_false] at ht
  rcases ht with h | h | h | h | h | h | h | h | h
  · exact ruleTitleAttr_good l t h.symm
  · exact ruleAria_good l t h.symm
  · exact ruleElemData_good l t h.symm
  · exact ruleHeading_good l t h.symm
  · exact ruleParentData_good l t h.symm
  · exact ruleFilename_good api hwf src t h.symm
  · rw [rulePlatform_eq _ _ _ h.symm]
    constructor <;> decide
  · rw [rulePlatform_eq _ _ _ h.symm]
    constructor <;> decide
  · rw [rulePlatform_eq _ _ _ h.symm]
    constructor <;> decide

/-- The iframe cascade always yields a usable title. -/
theorem iframeTitleCascade_good (api : UrlApi) (l : Located) (src : Str) :
    goodTitle (iframeTitleCascade l src api) := by
  unfold iframeTitleCascade
  refine cascade_getD_good _ _ ?_ (by constructor <;> decide)
  intro t ht
  simp only [List.mem_cons, List.not_mem_nil, or_false] at ht
  rcases ht with h | h | h | h | h | h | h | h | h
  · exact ruleTitleAttr_good l t h.symm
  · exact ruleAria_good l t h.symm
  · exact ruleElemData_good l t h.symm
  · exact ruleHeading_good l t h.symm
  · exact ruleParentData_good l t h.symm
  · exact ruleEmbedUrl_good api src t h.symm
  · rw [rulePlatform_eq _ _ _ h.symm]
    constructor <;> decide
  · rw [rulePlatform_eq _ _ _ h.symm]
    constructor <;> decide
  · rw [rulePlatform_eq _ _ _ h.symm]
    constructor <;> decide

/-- Claim C2: every candidate the extractor returns — image, video or iframe
embed alike — carries a non-empty, non-whitespace title, for every document,
base URL, and well-formed URL collaborator. -/
theorem C2_extracted_titles_nonblank (api : UrlApi) (hwf : WfUrlApi api)
    (doc : Html) (baseUrl : Str) :
    ∀ m ∈ extract api doc baseUrl, goodTitle m.title := by
  intro m hm
  unfold extract at hm
  rcases List.mem_append.1 hm with hm1 | hmi
  · rcases List.mem_append.1 hm1 with hmimg | hmvid
    · obtain ⟨l, _, heq⟩ := List.mem_filterMap.1 hmimg
      unfold imgItem at heq
      split at heq
      · split at heq
        · split at heq
          · have hrec := Option.some.inj heq
            rw [← hrec]
            rw [computeImageTitle_eq_cascade]
            exact imageTitleCascade_good api hwf _ _
          · simp at heq
        · simp at heq
      · simp at heq
    · obtain ⟨l, _, heq⟩ := List.mem_filterMap.1 hmvid
      unfold videoItem at heq
      split at heq
      · split at heq
        · split at heq
          · split at heq
            · have hrec := Option.some.inj heq
              rw [← hrec]
              rw [computeVideoTitle_eq_cascade]
              exact videoTitleCascade_good api hwf _ _
            · simp at heq
          · simp at heq
        · simp at heq
      · simp at heq
  · obtain ⟨l, _, heq⟩ := List.mem_filterMap.1 hmi
    unfold iframeItem at heq
    split at heq
    · split at heq
      · split at heq
        · have hrec := Option.some.inj heq
          rw [← hrec]
          rw [computeIframeTitle_eq_cascade]
          exact iframeTitleCascade_good api _ _
        · simp at heq
      · simp at heq
    · simp at heq

/-- Witness for C2: the trivial collaborator is well-formed and the theorem
applies to Scenario A's document. -/
theorem C2_extracted_titles_nonblank_witness :
    WfUrlApi trivUrlApi ∧
      ∀ m ∈ extract trivUrlApi scenarioADoc ("https://ex.com/page".data),
        goodTitle m.title :=
  ⟨fun _ _ h => (nomatch h),
   C2_extracted_titles_nonblank trivUrlApi (fun _ _ h => (nomatch h))
     scenarioADoc ("https://ex.com/page".data)⟩
